import Mathlib

/-!
Shallow embedding of the WebSocket signaling server (src/server.js) of
Muons-Technology/muons-server-r-d, together with proofs checking the
natural-language specification against it.

The embedding models the connection registry (the global `clients` Map),
the per-connection handler closures (the connection-local `userId`
variable and the `pingInterval` timer created when a connection is
accepted), and the event handlers attached to each WebSocket:
`message` (with its register / message / webrtc-signal dispatch),
`close`, and `error`.  Events of distinct connections are interleaved by
the single-threaded runtime, each handler running to completion, so the
whole server is a deterministic step function on a server state.
-/

namespace MuonsServer

/-- JS runtime values that the connection-local variable `userId` can take in
server.js: it starts as `null` (line 23), and a register envelope assigns it
`data.userId`, which is either a string or `undefined` when the field is
absent. -/
inductive JsVal where
  | null
  | undef
  | str (s : String)
deriving DecidableEq, Repr

/-- JS truthiness of such a value: `null`, `undefined` and the empty string
are falsy, every other string is truthy.  Used by the close handler's
`if (userId)` guard (server.js line 114). -/
def jsTruthy : JsVal → Bool
  | .str s => s ≠ ""
  | _ => false

/-- Reading a possibly-absent JSON field as a JS value: an absent field is
`undefined`. -/
def jsOfOpt : Option String → JsVal
  | none => .undef
  | some s => .str s

/-- String interpolation of a JS value, as in a template literal:
`undefined` prints as "undefined" and `null` as "null". -/
def jsToString : JsVal → String
  | .null => "null"
  | .undef => "undefined"
  | .str s => s

/-- Lookup in a JS Map modelled as an association list (`Map.get`). -/
def mapGet {K V : Type} [DecidableEq K] : List (K × V) → K → Option V
  | [], _ => none
  | (a, b) :: rest, k => if a = k then some b else mapGet rest k

/-- Insertion into a JS Map (`Map.set`): replaces the entry in place when the
key is present, appends otherwise (JS Maps iterate in insertion order). -/
def mapSet {K V : Type} [DecidableEq K] : List (K × V) → K → V → List (K × V)
  | [], k, v => [(k, v)]
  | (a, b) :: rest, k, v =>
    if a = k then (k, v) :: rest else (a, b) :: mapSet rest k v

/-- Deletion from a JS Map (`Map.delete`): removes the entry for the key if
present. -/
def mapDelete {K V : Type} [DecidableEq K] : List (K × V) → K → List (K × V)
  | [], _ => []
  | (a, b) :: rest, k => if a = k then rest else (a, b) :: mapDelete rest k

/-- Keys of an association list, in order. -/
def keys {K V : Type} (l : List (K × V)) : List K := l.map Prod.fst

/-- One entry of the `clients` registry (server.js line 19-20):
`userId => \x7b ws, tailscaleIp, pingInterval \x7d`.  Channels and timers are
identified by the numeric id of the connection that owns them; the
`pingInterval` stored in a record is the interval handle captured by the
registering connection's closure. -/
structure Client where
  ws : Nat
  tailscaleIp : String
  pingInterval : Nat
deriving DecidableEq, Repr

/-- Transport-level state of one accepted connection: whether its channel is
open (`ws.readyState === WebSocket.OPEN`), the connection-local `userId`
variable of its handler closure, and whether its keepalive interval
(created at accept time, server.js line 26) is still scheduled. -/
structure ConnInfo where
  isOpen : Bool
  userId : JsVal
  pingActive : Bool
deriving DecidableEq, Repr

/-- The whole server state: the accepted connections with their per-closure
state, and the global `clients` registry Map. -/
structure ServerState where
  conns : List (Nat × ConnInfo)
  clients : List (Option String × Client)
deriving DecidableEq, Repr

/-- A decoded inbound JSON envelope: the fields server.js reads from the
parsed object, each possibly absent.  Payload-like fields (message,
timestamp, nested signal data) are carried opaquely as strings; the handlers
only copy them. -/
structure RawData where
  type : Option String := none
  userId : Option String := none
  tailscaleIP : Option String := none
  from_ : Option String := none
  to_ : Option String := none
  message : Option String := none
  timestamp : Option String := none
  data : Option String := none
deriving DecidableEq, Repr

/-- Outbound envelopes the server sends on a channel. -/
inductive OutMsg where
  | registered (userId : Option String) (tailscaleIp : String)
  | errorMsg (message : String)
  | fwdMessage (to_ from_ message timestamp : Option String)
  | fwdSignal (from_ to_ : Option String) (data : Option String)
  | ping
deriving DecidableEq, Repr

/-- Normalization of the auxiliary address (server.js line 43):
`data.tailscaleIP && data.tailscaleIP !== 'null' ? data.tailscaleIP : 'N/A'`.
Note that the empty string is falsy in JS, so it also maps to "N/A". -/
def normIp : Option String → String
  | some s => if s ≠ "" ∧ s ≠ "null" then s else "N/A"
  | none => "N/A"

/-- The duplicate-registration error text (server.js line 50), interpolating
the JS value of `data.userId`. -/
def dupMsg (u : Option String) : String :=
  "User \"" ++ jsToString (jsOfOpt u) ++ "\" is already registered."

/-- Whether the channel of connection `c` currently reports the OPEN ready
state. -/
def connOpen (s : ServerState) (c : Nat) : Bool :=
  match mapGet s.conns c with
  | some ci => ci.isOpen
  | none => false

/-- Assignment to the connection-local `userId` variable of connection `c`
(server.js line 42). -/
def setConnUserId (s : ServerState) (c : Nat) (v : JsVal) : ServerState :=
  match mapGet s.conns c with
  | some ci => { s with conns := mapSet s.conns c { ci with userId := v } }
  | none => s

/-- The register branch of the message handler (server.js lines 41-63):
assign the local `userId`, normalize the address, reject when an entry with
an open channel exists, otherwise delete any stale entry, insert the new
record (capturing this connection's interval handle) and confirm. -/
def handleRegister (s : ServerState) (c : Nat) (d : RawData) :
    ServerState × List (Nat × OutMsg) :=
  let s1 := setConnUserId s c (jsOfOpt d.userId)
  match mapGet s1.clients d.userId with
  | some existing =>
    if connOpen s1 existing.ws then
      (s1, [(c, OutMsg.errorMsg (dupMsg d.userId))])
    else
      ({ s1 with clients := mapSet (mapDelete s1.clients d.userId) d.userId ⟨c, normIp d.tailscaleIP, c⟩ },
       [(c, OutMsg.registered d.userId (normIp d.tailscaleIP))])
  | none =>
      ({ s1 with clients := mapSet (mapDelete s1.clients d.userId) d.userId ⟨c, normIp d.tailscaleIP, c⟩ },
       [(c, OutMsg.registered d.userId (normIp d.tailscaleIP))])

/-- The message branch (server.js lines 66-85): look up the destination and
forward a reconstructed envelope when its channel is open, otherwise drop.
The sender gets nothing in either case. -/
def handleMessage (s : ServerState) (d : RawData) :
    ServerState × List (Nat × OutMsg) :=
  match mapGet s.clients d.to_ with
  | some recipient =>
    if connOpen s recipient.ws then
      (s, [(recipient.ws, OutMsg.fwdMessage d.to_ d.from_ d.message d.timestamp)])
    else (s, [])
  | none => (s, [])

/-- The webrtc-signal branch (server.js lines 88-105): same routing as the
message branch, forwarding from/to and the nested signal payload. -/
def handleSignal (s : ServerState) (d : RawData) :
    ServerState × List (Nat × OutMsg) :=
  match mapGet s.clients d.to_ with
  | some recipient =>
    if connOpen s recipient.ws then
      (s, [(recipient.ws, OutMsg.fwdSignal d.from_ d.to_ d.data)])
    else (s, [])
  | none => (s, [])

/-- Dispatch of a successfully parsed envelope on its `type` discriminator
(server.js lines 41, 66, 88); any other type falls through every branch and
nothing happens. -/
def handleData (s : ServerState) (c : Nat) (d : RawData) :
    ServerState × List (Nat × OutMsg) :=
  if d.type = some "register" then handleRegister s c d
  else if d.type = some "message" then handleMessage s d
  else if d.type = some "webrtc-signal" then handleSignal s d
  else (s, [])

/-- Connection-level events delivered by the transport: acceptance of a new
connection, an inbound payload (`none` when JSON.parse throws, in which case
the catch block only logs), the close event, and the error event. -/
inductive Event where
  | connect (c : Nat)
  | recv (c : Nat) (p : Option RawData)
  | close (c : Nat)
  | error (c : Nat)
deriving DecidableEq, Repr

/-- One event handled to completion.  `connect` installs the per-connection
closure state and starts the keepalive interval (server.js lines 22-30);
`recv` runs the message handler; `close` clears the interval and deletes the
registry entry under the closure's `userId` when that value is truthy
(server.js lines 112-119); `error` only logs (server.js lines 121-123). -/
def step (s : ServerState) (e : Event) : ServerState × List (Nat × OutMsg) :=
  match e with
  | .connect c =>
    match mapGet s.conns c with
    | some _ => (s, [])
    | none =>
      ({ s with conns :=
          s.conns ++ [(c, { isOpen := true, userId := JsVal.null, pingActive := true })] },
       [])
  | .recv c p =>
    match mapGet s.conns c with
    | some ci =>
      if ci.isOpen then
        match p with
        | none => (s, [])
        | some d => handleData s c d
      else (s, [])
    | none => (s, [])
  | .close c =>
    match mapGet s.conns c with
    | some ci =>
      if ci.isOpen then
        match ci.userId with
        | JsVal.str u =>
          if u ≠ "" then
            ({ conns := mapSet s.conns c { ci with isOpen := false, pingActive := false },
               clients := mapDelete s.clients (some u) }, [])
          else
            ({ s with conns := mapSet s.conns c { ci with isOpen := false, pingActive := false } }, [])
        | _ =>
          ({ s with conns := mapSet s.conns c { ci with isOpen := false, pingActive := false } }, [])
      else (s, [])
    | none => (s, [])
  | .error _ => (s, [])

/-- State component of a step. -/
def stepState (s : ServerState) (e : Event) : ServerState := (step s e).1

/-- Sends emitted by a step. -/
def stepSends (s : ServerState) (e : Event) : List (Nat × OutMsg) := (step s e).2

/-- The server starts with no connections and an empty registry. -/
def initState : ServerState := { conns := [], clients := [] }

/-- Run a sequence of events from a given state. -/
def runFrom (s : ServerState) : List Event → ServerState
  | [] => s
  | e :: es => runFrom (stepState s e) es

/-- Run a sequence of events from the initial state. -/
def run (es : List Event) : ServerState := runFrom initState es

/-- A register envelope, as decoded from
`\x7btype:"register", userId, tailscaleIP\x7d`. -/
def regEnv (u t : Option String) : RawData :=
  { type := some "register", userId := u, tailscaleIP := t }


/-- Lookup after insertion: the inserted key reads back the new value, every
other key is untouched. -/
theorem mapGet_mapSet {K V : Type} [DecidableEq K] (l : List (K × V)) (k x : K) (v : V) :
    mapGet (mapSet l k v) x = if k = x then some v else mapGet l x := by
  induction l with
  | nil => by_cases h : k = x <;> simp [mapSet, mapGet, h]
  | cons hd tl ih =>
    obtain ⟨a, b⟩ := hd
    by_cases hak : a = k
    · subst hak
      by_cases hax : a = x <;> simp [mapSet, mapGet, hax]
    · by_cases hax : a = x
      · subst hax
        have hka : ¬ k = a := fun h => hak h.symm
        simp [mapSet, hak, mapGet, hka]
      · simp [mapSet, hak, mapGet, hax, ih]

/-- Deletion does not disturb lookups of other keys. -/
theorem mapGet_mapDelete_ne {K V : Type} [DecidableEq K] (l : List (K × V)) (k x : K)
    (h : k ≠ x) : mapGet (mapDelete l k) x = mapGet l x := by
  induction l with
  | nil => simp [mapDelete]
  | cons hd tl ih =>
    obtain ⟨a, b⟩ := hd
    by_cases hak : a = k
    · subst hak
      have hax : ¬ a = x := fun h2 => h (h2 ▸ rfl)
      simp [mapDelete, mapGet, hax]
    · simp [mapDelete, hak, mapGet, ih]

/-- A key that does not occur in the list looks up to nothing. -/
theorem mapGet_eq_none_of_not_mem {K V : Type} [DecidableEq K] (l : List (K × V)) (k : K)
    (h : k ∉ keys l) : mapGet l k = none := by
  induction l with
  | nil => simp [mapGet]
  | cons hd tl ih =>
    obtain ⟨a, b⟩ := hd
    rw [keys, List.map_cons] at h
    simp only [List.mem_cons, not_or] at h
    have hak : ¬ a = k := fun h2 => h.1 h2.symm
    simp only [mapGet, if_neg hak]
    exact ih (by simpa [keys] using h.2)

/-- Deleting a key removes it, provided keys are unique (as they are in a JS
Map). -/
theorem mapGet_mapDelete_self {K V : Type} [DecidableEq K] (l : List (K × V)) (k : K)
    (h : (keys l).Nodup) : mapGet (mapDelete l k) k = none := by
  induction l with
  | nil => simp [mapDelete, mapGet]
  | cons hd tl ih =>
    obtain ⟨a, b⟩ := hd
    rw [keys, List.map_cons, List.nodup_cons] at h
    by_cases hak : a = k
    · subst hak
      simp only [mapDelete, if_pos rfl]
      exact mapGet_eq_none_of_not_mem tl a (by simpa [keys] using h.1)
    · simp only [mapDelete, if_neg hak, mapGet, if_neg hak]
      exact ih (by simpa [keys] using h.2)

/-- Deletion yields a sublist. -/
theorem mapDelete_sublist {K V : Type} [DecidableEq K] (l : List (K × V)) (k : K) :
    List.Sublist (mapDelete l k) l := by
  induction l with
  | nil => simp [mapDelete]
  | cons hd tl ih =>
    obtain ⟨a, b⟩ := hd
    by_cases hak : a = k
    · simp only [mapDelete, if_pos hak]
      exact List.sublist_cons_self (a, b) tl
    · simpa [mapDelete, hak] using ih.cons₂ (a, b)

/-- Members of the deletion are members of the original list. -/
theorem mem_mapDelete {K V : Type} [DecidableEq K] {l : List (K × V)} {k : K} {p : K × V}
    (h : p ∈ mapDelete l k) : p ∈ l :=
  (mapDelete_sublist l k).subset h

/-- Key uniqueness survives deletion. -/
theorem nodup_keys_mapDelete {K V : Type} [DecidableEq K] (l : List (K × V)) (k : K)
    (h : (keys l).Nodup) : (keys (mapDelete l k)).Nodup :=
  List.Nodup.sublist ((mapDelete_sublist l k).map Prod.fst) h

/-- Members of an insertion are the new entry or members of the original. -/
theorem mem_mapSet {K V : Type} [DecidableEq K] {l : List (K × V)} {k : K} {v : V} {p : K × V}
    (h : p ∈ mapSet l k v) : p = (k, v) ∨ p ∈ l := by
  induction l with
  | nil => simpa [mapSet] using h
  | cons hd tl ih =>
    obtain ⟨a, b⟩ := hd
    by_cases hak : a = k
    · subst hak
      have h2 : p = (a, v) ∨ p ∈ tl := by simpa [mapSet] using h
      rcases h2 with h2 | h2
      · exact Or.inl h2
      · exact Or.inr (List.mem_cons_of_mem _ h2)
    · simp only [mapSet, if_neg hak, List.mem_cons] at h
      rcases h with h | h
      · exact Or.inr (by simp [h])
      · rcases ih h with h2 | h2
        · exact Or.inl h2
        · exact Or.inr (List.mem_cons_of_mem _ h2)

/-- The keys after insertion: unchanged when the key was present, the key
appended otherwise. -/
theorem keys_mapSet {K V : Type} [DecidableEq K] (l : List (K × V)) (k : K) (v : V) :
    keys (mapSet l k v) = if k ∈ keys l then keys l else keys l ++ [k] := by
  induction l with
  | nil => simp [mapSet, keys]
  | cons hd tl ih =>
    obtain ⟨a, b⟩ := hd
    by_cases hak : a = k
    · subst hak
      simp [mapSet, keys]
    · have hka : ¬ k = a := fun h2 => hak h2.symm
      simp only [keys] at ih
      simp only [mapSet, if_neg hak, keys, List.map_cons, List.mem_cons, hka, false_or, ih]
      by_cases hk : k ∈ List.map Prod.fst tl
      · simp [hk]
      · simp [hk]

/-- Key uniqueness survives insertion. -/
theorem nodup_keys_mapSet {K V : Type} [DecidableEq K] (l : List (K × V)) (k : K) (v : V)
    (h : (keys l).Nodup) : (keys (mapSet l k v)).Nodup := by
  rw [keys_mapSet]
  by_cases hk : k ∈ keys l
  · simpa [hk] using h
  · simp only [if_neg hk]
    simp [List.nodup_append, h, hk]

/-- A successful lookup exhibits a member. -/
theorem mapGet_mem {K V : Type} [DecidableEq K] {l : List (K × V)} {k : K} {v : V}
    (h : mapGet l k = some v) : (k, v) ∈ l := by
  induction l with
  | nil => simp [mapGet] at h
  | cons hd tl ih =>
    obtain ⟨a, b⟩ := hd
    by_cases hak : a = k
    · subst hak
      have hb : b = v := by simpa [mapGet] using h
      subst hb
      exact List.mem_cons_self _ _
    · simp only [mapGet, if_neg hak] at h
      exact List.mem_cons_of_mem _ (ih h)

/-- Assigning the connection-local userId leaves the registry untouched. -/
theorem setConnUserId_clients (s : ServerState) (c : Nat) (v : JsVal) :
    (setConnUserId s c v).clients = s.clients := by
  unfold setConnUserId
  cases mapGet s.conns c <;> rfl

/-- Assigning the connection-local userId does not change any channel's open
state. -/
theorem connOpen_setConnUserId (s : ServerState) (c : Nat) (v : JsVal) (x : Nat) :
    connOpen (setConnUserId s c v) x = connOpen s x := by
  unfold setConnUserId
  cases hc : mapGet s.conns c with
  | none => rfl
  | some ci =>
    unfold connOpen
    simp only [mapGet_mapSet]
    by_cases hx : c = x
    · subst hx
      simp [hc]
    · simp [hx]

/-- Looking up a connection after the userId assignment. -/
theorem mapGet_conns_setConnUserId (s : ServerState) (c : Nat) (ci : ConnInfo) (v : JsVal)
    (h : mapGet s.conns c = some ci) (x : Nat) :
    mapGet (setConnUserId s c v).conns x =
      if c = x then some { ci with userId := v } else mapGet s.conns x := by
  unfold setConnUserId
  rw [h]
  simp [mapGet_mapSet]

/-- An inbound payload on an open connection runs the message handler. -/
theorem step_recv_open (s : ServerState) (c : Nat) (ci : ConnInfo) (d : RawData)
    (h : mapGet s.conns c = some ci) (ho : ci.isOpen = true) :
    step s (Event.recv c (some d)) = handleData s c d := by
  simp [step, h, ho]

/-- An undecodable payload on an open connection is dropped: no state change
and no sends (the catch block only logs). -/
theorem step_recv_undecodable (s : ServerState) (c : Nat) (ci : ConnInfo)
    (h : mapGet s.conns c = some ci) (ho : ci.isOpen = true) :
    step s (Event.recv c none) = (s, []) := by
  simp [step, h, ho]

/-- A register envelope goes to the register branch. -/
theorem handleData_register (s : ServerState) (c : Nat) (d : RawData)
    (h : d.type = some "register") : handleData s c d = handleRegister s c d := by
  simp [handleData, h]

/-- The duplicate branch of the register handler (server.js lines 45-52): an
existing record whose channel is open makes registration fail with the error
reply; the registry is untouched, but the connection-local userId assignment
of line 42 survives. -/
theorem handleRegister_dup (s : ServerState) (c : Nat) (d : RawData) (r : Client)
    (hx : mapGet s.clients d.userId = some r) (hr : connOpen s r.ws = true) :
    handleRegister s c d =
      (setConnUserId s c (jsOfOpt d.userId), [(c, OutMsg.errorMsg (dupMsg d.userId))]) := by
  simp only [handleRegister, setConnUserId_clients, hx, connOpen_setConnUserId, hr, if_true]

/-- The success branch of the register handler (server.js lines 53-62): with
no live record under the identity, any stale entry is deleted, the new record
bound to this channel and its interval handle is inserted, and the
confirmation is sent. -/
theorem handleRegister_success (s : ServerState) (c : Nat) (d : RawData)
    (hstale : ∀ r, mapGet s.clients d.userId = some r → connOpen s r.ws = false) :
    handleRegister s c d =
      ({ setConnUserId s c (jsOfOpt d.userId) with clients := mapSet (mapDelete s.clients d.userId) d.userId ⟨c, normIp d.tailscaleIP, c⟩ }, [(c, OutMsg.registered d.userId (normIp d.tailscaleIP))]) := by
  cases hx : mapGet s.clients d.userId with
  | none => simp only [handleRegister, setConnUserId_clients, hx]
  | some r =>
    have hr := hstale r hx
    simp only [handleRegister, setConnUserId_clients, hx, connOpen_setConnUserId, hr,
      Bool.false_eq_true, if_false]

/-- The close handler with a truthy registered identity (server.js lines
112-119): the interval is cleared, the channel is marked closed, and the
registry entry under that identity string is deleted — whichever channel it
is bound to. -/
theorem step_close_str (s : ServerState) (c : Nat) (ci : ConnInfo) (u : String)
    (h : mapGet s.conns c = some ci) (ho : ci.isOpen = true)
    (hu : ci.userId = JsVal.str u) (hne : u ≠ "") :
    step s (Event.close c) =
      ({ conns := mapSet s.conns c { ci with isOpen := false, pingActive := false }, clients := mapDelete s.clients (some u) }, []) := by
  simp [step, h, ho, hu, hne]

/-- The close handler with a falsy identity (never registered, or registered
with an absent or empty userId): the interval is cleared and the channel
marked closed, but nothing is removed from the registry. -/
theorem step_close_falsy (s : ServerState) (c : Nat) (ci : ConnInfo)
    (h : mapGet s.conns c = some ci) (ho : ci.isOpen = true)
    (hf : jsTruthy ci.userId = false) :
    step s (Event.close c) =
      ({ s with conns := mapSet s.conns c { ci with isOpen := false, pingActive := false } }, []) := by
  cases hu : ci.userId with
  | null => simp [step, h, ho, hu]
  | undef => simp [step, h, ho, hu]
  | str u =>
    have he : u = "" := by
      have hf2 := hf
      rw [hu] at hf2
      simpa [jsTruthy] using hf2
    subst he
    simp [step, h, ho, hu]

/-- The message branch never changes the server state. -/
theorem handleMessage_state (s : ServerState) (d : RawData) :
    (handleMessage s d).1 = s := by
  unfold handleMessage
  cases hx : mapGet s.clients d.to_ with
  | none => rfl
  | some r => by_cases hr : connOpen s r.ws <;> simp [hr]

/-- The webrtc-signal branch never changes the server state. -/
theorem handleSignal_state (s : ServerState) (d : RawData) :
    (handleSignal s d).1 = s := by
  unfold handleSignal
  cases hx : mapGet s.clients d.to_ with
  | none => rfl
  | some r => by_cases hr : connOpen s r.ws <;> simp [hr]

/-- The register branch either leaves the registry alone (duplicate) or
replaces the entry under the requested identity by the freshly built
record. -/
theorem handleRegister_clients (s : ServerState) (c : Nat) (d : RawData) :
    (handleRegister s c d).1.clients = s.clients ∨
    (handleRegister s c d).1.clients = mapSet (mapDelete s.clients d.userId) d.userId ⟨c, normIp d.tailscaleIP, c⟩ := by
  by_cases hl : ∀ r, mapGet s.clients d.userId = some r → connOpen s r.ws = false
  · right
    rw [handleRegister_success s c d hl]
  · left
    push_neg at hl
    obtain ⟨r, hx, hr⟩ := hl
    rw [handleRegister_dup s c d r hx (by simpa using hr)]
    exact setConnUserId_clients s c (jsOfOpt d.userId)

/-- The register branch only touches the conns component through the userId
assignment. -/
theorem handleRegister_conns (s : ServerState) (c : Nat) (d : RawData) :
    (handleRegister s c d).1.conns = (setConnUserId s c (jsOfOpt d.userId)).conns := by
  by_cases hl : ∀ r, mapGet s.clients d.userId = some r → connOpen s r.ws = false
  · rw [handleRegister_success s c d hl]
  · push_neg at hl
    obtain ⟨r, hx, hr⟩ := hl
    rw [handleRegister_dup s c d r hx (by simpa using hr)]

/-- Every branch of the message-handler dispatch preserves key uniqueness of
the registry. -/
theorem nodup_handleData (s : ServerState) (c : Nat) (d : RawData)
    (h : (keys s.clients).Nodup) : (keys (handleData s c d).1.clients).Nodup := by
  unfold handleData
  by_cases h1 : d.type = some "register"
  · rw [if_pos h1]
    rcases handleRegister_clients s c d with hc | hc
    · rw [hc]; exact h
    · rw [hc]; exact nodup_keys_mapSet _ _ _ (nodup_keys_mapDelete _ _ h)
  · rw [if_neg h1]
    by_cases h2 : d.type = some "message"
    · rw [if_pos h2, handleMessage_state]; exact h
    · rw [if_neg h2]
      by_cases h3 : d.type = some "webrtc-signal"
      · rw [if_pos h3, handleSignal_state]; exact h
      · rw [if_neg h3]; exact h

/-- Every event preserves key uniqueness of the registry. -/
theorem nodup_stepState (s : ServerState) (e : Event)
    (h : (keys s.clients).Nodup) : (keys (stepState s e).clients).Nodup := by
  cases e with
  | connect c =>
    simp only [stepState, step]
    cases hc : mapGet s.conns c <;> exact h
  | error c => exact h
  | recv c p =>
    cases hc : mapGet s.conns c with
    | none =>
      simp only [stepState, step]
      rw [hc]
      exact h
    | some ci =>
      by_cases ho : ci.isOpen = true
      · cases p with
        | none =>
          simp only [stepState]
          rw [step_recv_undecodable s c ci hc ho]
          exact h
        | some d =>
          simp only [stepState]
          rw [step_recv_open s c ci d hc ho]
          exact nodup_handleData s c d h
      · simp only [stepState, step]
        rw [hc]
        rw [Bool.not_eq_true] at ho
        simp only [ho, Bool.false_eq_true, if_false]
        exact h
  | close c =>
    cases hc : mapGet s.conns c with
    | none =>
      simp only [stepState, step]
      rw [hc]
      exact h
    | some ci =>
      by_cases ho : ci.isOpen = true
      · by_cases ht : jsTruthy ci.userId = true
        · cases hu : ci.userId with
          | null => rw [hu] at ht; simp [jsTruthy] at ht
          | undef => rw [hu] at ht; simp [jsTruthy] at ht
          | str u =>
            have hne : u ≠ "" := by
              rw [hu] at ht
              simpa [jsTruthy] using ht
            simp only [stepState]
            rw [step_close_str s c ci u hc ho hu hne]
            exact nodup_keys_mapDelete _ _ h
        · have hf : jsTruthy ci.userId = false := by simpa using ht
          simp only [stepState]
          rw [step_close_falsy s c ci hc ho hf]
          exact h
      · simp only [stepState, step]
        rw [hc]
        rw [Bool.not_eq_true] at ho
        simp only [ho, Bool.false_eq_true, if_false]
        exact h

/-- Key uniqueness is preserved along any run. -/
theorem nodup_runFrom (es : List Event) : ∀ s : ServerState,
    (keys s.clients).Nodup → (keys (runFrom s es).clients).Nodup := by
  induction es with
  | nil => intro s h; exact h
  | cons e es ih => intro s h; exact ih _ (nodup_stepState s e h)

/-- The timer discipline the code actually implements: every accepted
connection's keepalive interval is scheduled exactly while its channel is
open, and every registry record's stored interval handle is the one created
by the connection the record is bound to. -/
def timerInv (s : ServerState) : Prop :=
  (∀ p ∈ s.conns, p.2.pingActive = p.2.isOpen) ∧
  (∀ q ∈ s.clients, q.2.pingInterval = q.2.ws)

/-- The userId assignment preserves the timer discipline. -/
theorem timerInv_setConnUserId (s : ServerState) (c : Nat) (v : JsVal)
    (h : timerInv s) : timerInv (setConnUserId s c v) := by
  unfold setConnUserId
  cases hc : mapGet s.conns c with
  | none => exact h
  | some ci =>
    constructor
    · intro p hp
      rcases mem_mapSet hp with hp | hp
      · subst hp
        simpa using h.1 (c, ci) (mapGet_mem hc)
      · exact h.1 p hp
    · exact h.2

/-- Every branch of the message-handler dispatch preserves the timer
discipline. -/
theorem timerInv_handleData (s : ServerState) (c : Nat) (d : RawData)
    (h : timerInv s) : timerInv (handleData s c d).1 := by
  unfold handleData
  by_cases h1 : d.type = some "register"
  · rw [if_pos h1]
    constructor
    · intro p hp
      rw [handleRegister_conns] at hp
      exact (timerInv_setConnUserId s c (jsOfOpt d.userId) h).1 p hp
    · intro q hq
      rcases handleRegister_clients s c d with hc | hc
      · rw [hc] at hq
        exact h.2 q hq
      · rw [hc] at hq
        rcases mem_mapSet hq with hq | hq
        · subst hq; rfl
        · exact h.2 q (mem_mapDelete hq)
  · rw [if_neg h1]
    by_cases h2 : d.type = some "message"
    · rw [if_pos h2, handleMessage_state]; exact h
    · rw [if_neg h2]
      by_cases h3 : d.type = some "webrtc-signal"
      · rw [if_pos h3, handleSignal_state]; exact h
      · rw [if_neg h3]; exact h

/-- Every event preserves the timer discipline. -/
theorem timerInv_stepState (s : ServerState) (e : Event)
    (h : timerInv s) : timerInv (stepState s e) := by
  cases e with
  | connect c =>
    simp only [stepState, step]
    cases hc : mapGet s.conns c with
    | some ci => exact h
    | none =>
      constructor
      · intro p hp
        rcases List.mem_append.mp hp with hp | hp
        · exact h.1 p hp
        · rw [List.mem_singleton] at hp
          subst hp
          rfl
      · exact h.2
  | error c => exact h
  | recv c p =>
    cases hc : mapGet s.conns c with
    | none =>
      simp only [stepState, step]
      rw [hc]
      exact h
    | some ci =>
      by_cases ho : ci.isOpen = true
      · cases p with
        | none =>
          simp only [stepState]
          rw [step_recv_undecodable s c ci hc ho]
          exact h
        | some d =>
          simp only [stepState]
          rw [step_recv_open s c ci d hc ho]
          exact timerInv_handleData s c d h
      · simp only [stepState, step]
        rw [hc]
        rw [Bool.not_eq_true] at ho
        simp only [ho, Bool.false_eq_true, if_false]
        exact h
  | close c =>
    cases hc : mapGet s.conns c with
    | none =>
      simp only [stepState, step]
      rw [hc]
      exact h
    | some ci =>
      have hconns : ∀ p, p ∈ mapSet s.conns c { ci with isOpen := false, pingActive := false } →
          p.2.pingActive = p.2.isOpen := by
        intro p hp
        rcases mem_mapSet hp with hp | hp
        · subst hp; rfl
        · exact h.1 p hp
      by_cases ho : ci.isOpen = true
      · by_cases ht : jsTruthy ci.userId = true
        · cases hu : ci.userId with
          | null => rw [hu] at ht; simp [jsTruthy] at ht
          | undef => rw [hu] at ht; simp [jsTruthy] at ht
          | str u =>
            have hne : u ≠ "" := by
              rw [hu] at ht
              simpa [jsTruthy] using ht
            simp only [stepState]
            rw [step_close_str s c ci u hc ho hu hne]
            exact ⟨hconns, fun q hq => h.2 q (mem_mapDelete hq)⟩
        · have hf : jsTruthy ci.userId = false := by simpa using ht
          simp only [stepState]
          rw [step_close_falsy s c ci hc ho hf]
          exact ⟨hconns, h.2⟩
      · simp only [stepState, step]
        rw [hc]
        rw [Bool.not_eq_true] at ho
        simp only [ho, Bool.false_eq_true, if_false]
        exact h

/-- The timer discipline is preserved along any run. -/
theorem timerInv_runFrom (es : List Event) : ∀ s : ServerState,
    timerInv s → timerInv (runFrom s es) := by
  induction es with
  | nil => intro s h; exact h
  | cons e es ih => intro s h; exact ih _ (timerInv_stepState s e h)

/-- C1 counterexample: the claim that removal at close is keyed by the
specific connection fails on the code.  Connection 0 registers "alice";
connection 1 attempts to register "alice" and is rejected as a duplicate,
but line 42 of server.js has already set connection 1's local userId.  When
connection 1 closes, the close handler deletes the registry entry for
"alice" even though it is bound to the still-open connection 0: before the
close the record for "alice" is bound to channel 0, after it channel 0 is
still open yet the record is gone. -/
theorem c1_counterexample :
    mapGet (run [Event.connect 0, Event.recv 0 (some (regEnv (some "alice") none)), Event.connect 1, Event.recv 1 (some (regEnv (some "alice") none))]).clients (some "alice") = some ⟨0, "N/A", 0⟩ ∧
    connOpen (run [Event.connect 0, Event.recv 0 (some (regEnv (some "alice") none)), Event.connect 1, Event.recv 1 (some (regEnv (some "alice") none)), Event.close 1]) 0 = true ∧
    mapGet (run [Event.connect 0, Event.recv 0 (some (regEnv (some "alice") none)), Event.connect 1, Event.recv 1 (some (regEnv (some "alice") none)), Event.close 1]).clients (some "alice") = none :=
  ⟨rfl, rfl, rfl⟩

/-- C1 (corrected): on teardown of a connection, removal from the registry is
keyed merely by the closing connection's last-assigned identity string, not
by the specific connection: when that local userId is falsy (never
registered, absent, or empty) nothing is removed, and when it is a nonempty
string u the entry currently stored under u is removed — whichever channel
it is bound to — while every other identity's entry is untouched. -/
theorem c1_close_removes_by_identity_string (s : ServerState) (c : Nat) (ci : ConnInfo)
    (hc : mapGet s.conns c = some ci) (ho : ci.isOpen = true)
    (hnd : (keys s.clients).Nodup) :
    (jsTruthy ci.userId = false → (stepState s (Event.close c)).clients = s.clients) ∧
    (∀ u : String, ci.userId = JsVal.str u → u ≠ "" →
      mapGet (stepState s (Event.close c)).clients (some u) = none ∧
      ∀ k, k ≠ some u → mapGet (stepState s (Event.close c)).clients k = mapGet s.clients k) := by
  constructor
  · intro hf
    simp only [stepState]
    rw [step_close_falsy s c ci hc ho hf]
  · intro u hu hne
    simp only [stepState]
    rw [step_close_str s c ci u hc ho hu hne]
    constructor
    · exact mapGet_mapDelete_self _ _ hnd
    · intro k hk
      exact mapGet_mapDelete_ne _ _ _ (Ne.symm hk)

/-- C1 witness: the corrected close behaviour applied to the duplicate-
rejection trace. -/
theorem c1_witness :
    mapGet (stepState (run [Event.connect 0, Event.recv 0 (some (regEnv (some "alice") none)), Event.connect 1, Event.recv 1 (some (regEnv (some "alice") none))]) (Event.close 1)).clients (some "alice") = none := by
  have h := c1_close_removes_by_identity_string
    (run [Event.connect 0, Event.recv 0 (some (regEnv (some "alice") none)), Event.connect 1, Event.recv 1 (some (regEnv (some "alice") none))])
    1 ⟨true, JsVal.str "alice", true⟩ rfl rfl (by decide)
  exact (h.2 "alice" rfl (by decide)).1

/-- C2 counterexample: a Connection Record can outlive its channel.
Connection 0 registers "alice", then re-registers as "bob" (overwriting its
local userId), then closes.  The close handler only deletes "bob", so the
registry still binds "alice" to channel 0 although channel 0 is closed. -/
theorem c2_counterexample :
    mapGet (run [Event.connect 0, Event.recv 0 (some (regEnv (some "alice") none)), Event.recv 0 (some (regEnv (some "bob") none)), Event.close 0]).clients (some "alice") = some ⟨0, "N/A", 0⟩ ∧
    connOpen (run [Event.connect 0, Event.recv 0 (some (regEnv (some "alice") none)), Event.recv 0 (some (regEnv (some "bob") none)), Event.close 0]) 0 = false :=
  ⟨rfl, rfl⟩

/-- C2 (corrected): closing a channel stops its liveness timer and removes
the registry entry under the connection's most recent truthy registration
identity; entries left by earlier registrations of the same connection (or
under a falsy identity) can remain bound to the closed channel as stale
entries.  A subsequent registration with the removed identity nevertheless
succeeds, and would also succeed over a stale entry because registration
evicts entries whose channel is not open. -/
theorem c2_close_teardown_and_reregister (s : ServerState) (c : Nat) (ci : ConnInfo) (u : String)
    (hc : mapGet s.conns c = some ci) (ho : ci.isOpen = true)
    (hu : ci.userId = JsVal.str u) (hne : u ≠ "")
    (hnd : (keys s.clients).Nodup) :
    mapGet (stepState s (Event.close c)).clients (some u) = none ∧
    mapGet (stepState s (Event.close c)).conns c = some ⟨false, JsVal.str u, false⟩ ∧
    (∀ c2 ci2 t, mapGet (stepState s (Event.close c)).conns c2 = some ci2 → ci2.isOpen = true →
      stepSends (stepState s (Event.close c)) (Event.recv c2 (some (regEnv (some u) t))) = [(c2, OutMsg.registered (some u) (normIp t))] ∧
      mapGet (stepState (stepState s (Event.close c)) (Event.recv c2 (some (regEnv (some u) t)))).clients (some u) = some ⟨c2, normIp t, c2⟩) := by
  have hclose := step_close_str s c ci u hc ho hu hne
  have hnone : mapGet (stepState s (Event.close c)).clients (some u) = none := by
    simp only [stepState, hclose]
    exact mapGet_mapDelete_self _ _ hnd
  refine ⟨hnone, ?_, ?_⟩
  · simp only [stepState, hclose]
    rw [mapGet_mapSet]
    simp [hu]
  · intro c2 ci2 t h2 ho2
    have hstale : ∀ r, mapGet (stepState s (Event.close c)).clients (regEnv (some u) t).userId = some r →
        connOpen (stepState s (Event.close c)) r.ws = false := by
      intro r hr
      rw [show (regEnv (some u) t).userId = some u from rfl, hnone] at hr
      exact absurd hr (by simp)
    have hstep : step (stepState s (Event.close c)) (Event.recv c2 (some (regEnv (some u) t))) =
        handleData (stepState s (Event.close c)) c2 (regEnv (some u) t) :=
      step_recv_open _ c2 ci2 _ h2 ho2
    rw [handleData_register _ _ _ rfl] at hstep
    rw [handleRegister_success _ c2 _ hstale] at hstep
    constructor
    · simp only [stepSends, hstep]
      rfl
    · simp only [stepState] at hstep ⊢
      rw [hstep]
      simp [mapGet_mapSet, regEnv]

/-- C2 witness: close connection 0 (registered as "alice"), then connection 1
successfully re-registers "alice". -/
theorem c2_witness :
    mapGet (stepState (run [Event.connect 0, Event.recv 0 (some (regEnv (some "alice") none)), Event.connect 1]) (Event.close 0)).clients (some "alice") = none ∧
    mapGet (stepState (stepState (run [Event.connect 0, Event.recv 0 (some (regEnv (some "alice") none)), Event.connect 1]) (Event.close 0)) (Event.recv 1 (some (regEnv (some "alice") none)))).clients (some "alice") = some ⟨1, "N/A", 1⟩ := by
  have h := c2_close_teardown_and_reregister
    (run [Event.connect 0, Event.recv 0 (some (regEnv (some "alice") none)), Event.connect 1])
    0 ⟨true, JsVal.str "alice", true⟩ "alice" rfl rfl rfl (by decide) (by decide)
  exact ⟨h.1, (h.2.2 1 ⟨true, JsVal.null, true⟩ none rfl rfl).2⟩

/-- C3 counterexample: the error handler does not perform the close teardown.
After connection 0 registers "alice" and its channel errors, the liveness
interval is still scheduled (pingActive) and the record for "alice" is still
in the registry, contradicting the claim that an error event tears the
record down. -/
theorem c3_counterexample :
    mapGet (run [Event.connect 0, Event.recv 0 (some (regEnv (some "alice") none)), Event.error 0]).conns 0 = some ⟨true, JsVal.str "alice", true⟩ ∧
    mapGet (run [Event.connect 0, Event.recv 0 (some (regEnv (some "alice") none)), Event.error 0]).clients (some "alice") = some ⟨0, "N/A", 0⟩ :=
  ⟨rfl, rfl⟩

/-- C3 (corrected): on a channel error event the server only logs: the
handler leaves the whole server state unchanged and sends nothing, so it
stops no timer and removes no record; teardown happens only when the close
event fires.  The error is not fatal: the handler is total and isolated to
the logging side effect. -/
theorem c3_error_handler_no_teardown (s : ServerState) (c : Nat) :
    step s (Event.error c) = (s, []) := rfl

/-- C4 counterexample: the liveness timer's lifetime is not the Connection
Record's lifetime.  After a bare connect, the interval is already scheduled
(pingActive) although the connection never registered and no record exists;
and one connection registering twice produces two records ("alice" and
"bob") sharing the single interval handle 0 of connection 0. -/
theorem c4_counterexample :
    mapGet (run [Event.connect 0]).conns 0 = some ⟨true, JsVal.null, true⟩ ∧
    (run [Event.connect 0]).clients = [] ∧
    mapGet (run [Event.connect 0, Event.recv 0 (some (regEnv (some "alice") none)), Event.recv 0 (some (regEnv (some "bob") none))]).clients (some "alice") = some ⟨0, "N/A", 0⟩ ∧
    mapGet (run [Event.connect 0, Event.recv 0 (some (regEnv (some "alice") none)), Event.recv 0 (some (regEnv (some "bob") none))]).clients (some "bob") = some ⟨0, "N/A", 0⟩ :=
  ⟨rfl, rfl, rfl, rfl⟩

/-- C4 (corrected): the liveness timer's lifetime equals the CONNECTION's
lifetime, not the record's: it is created when the connection is accepted
(before any registration, so it runs even for connections that never
register), it is active exactly while the channel is open, and it is
cancelled exactly once, by the close handler.  Records store the interval
handle of the connection they are bound to, so several records created by
one connection share its timer. -/
theorem c4_timer_matches_connection_lifetime (es : List Event) :
    ((run es).conns.all fun p => p.2.pingActive == p.2.isOpen) = true ∧
    ((run es).clients.all fun q => q.2.pingInterval == q.2.ws) = true := by
  have h : timerInv (run es) :=
    timerInv_runFrom es initState (by constructor <;> simp [initState, timerInv])
  constructor
  · rw [List.all_eq_true]
    intro p hp
    simpa using h.1 p hp
  · rw [List.all_eq_true]
    intro q hq
    simpa using h.2 q hq

/-- C5 (confirmed): a register envelope for an identity whose record's
channel is still open is rejected: the requesting channel receives exactly
the error envelope naming the identity, and the registry — including the
pre-existing record for that identity — is unchanged. -/
theorem c5_duplicate_rejected (s : ServerState) (c : Nat) (ci : ConnInfo) (x : String)
    (cl : Client) (t : Option String)
    (hc : mapGet s.conns c = some ci) (ho : ci.isOpen = true)
    (hx : mapGet s.clients (some x) = some cl) (hl : connOpen s cl.ws = true) :
    (stepState s (Event.recv c (some (regEnv (some x) t)))).clients = s.clients ∧
    stepSends s (Event.recv c (some (regEnv (some x) t))) = [(c, OutMsg.errorMsg ("User \"" ++ x ++ "\" is already registered."))] := by
  have hstep : step s (Event.recv c (some (regEnv (some x) t))) = handleData s c (regEnv (some x) t) :=
    step_recv_open s c ci _ hc ho
  rw [handleData_register _ _ _ rfl] at hstep
  rw [handleRegister_dup s c _ cl hx hl] at hstep
  constructor
  · simp only [stepState]
    rw [hstep]
    exact setConnUserId_clients s c (jsOfOpt (some x))
  · simp only [stepSends]
    rw [hstep]
    rfl

/-- C5 witness: a second connection attempting "alice" while the first is
open gets the exact error reply and the registry is untouched. -/
theorem c5_witness :
    (stepState (run [Event.connect 0, Event.recv 0 (some (regEnv (some "alice") none)), Event.connect 1]) (Event.recv 1 (some (regEnv (some "alice") none)))).clients = (run [Event.connect 0, Event.recv 0 (some (regEnv (some "alice") none)), Event.connect 1]).clients ∧
    stepSends (run [Event.connect 0, Event.recv 0 (some (regEnv (some "alice") none)), Event.connect 1]) (Event.recv 1 (some (regEnv (some "alice") none))) = [(1, OutMsg.errorMsg ("User \"" ++ "alice" ++ "\" is already registered."))] :=
  c5_duplicate_rejected
    (run [Event.connect 0, Event.recv 0 (some (regEnv (some "alice") none)), Event.connect 1])
    1 ⟨true, JsVal.null, true⟩ "alice" ⟨0, "N/A", 0⟩ none rfl rfl rfl rfl

/-- Modelled from the spec words of claim C6, for comparison with the code's
normalization: only a literal "null" or an absent value maps to the
sentinel; any other supplied string is the bound address. -/
def claimedNormIp : Option String → String
  | none => "N/A"
  | some a => if a = "null" then "N/A" else a

/-- Modelled from the amended wording of C6: a supplied nonempty string
other than the literal "null" passes through; absent, empty, or "null"
give the sentinel. -/
def amendedNormIp : Option String → String
  | none => "N/A"
  | some a => if a = "" ∨ a = "null" then "N/A" else a

/-- C6 counterexample: the supplied empty-string address is falsy in JS, so
the code replies with "N/A" where the claim's normalization (only "null" or
absence map to the sentinel) requires the supplied value "" to be echoed. -/
theorem c6_counterexample :
    stepSends (run [Event.connect 0]) (Event.recv 0 (some (regEnv (some "eve") (some "")))) = [(0, OutMsg.registered (some "eve") "N/A")] ∧
    claimedNormIp (some "") = "" ∧
    normIp (some "") ≠ claimedNormIp (some "") :=
  ⟨rfl, rfl, by decide⟩

/-- C6 (corrected): a register envelope for an identity with no record, or
only a record whose channel is no longer open, succeeds: the stale entry is
evicted and replaced by a record bound to the requesting channel, every
other identity's entry is untouched, and the requester receives the
registered confirmation whose tailscaleIp is the supplied address when it
is a nonempty string different from the literal "null", and the sentinel
"N/A" otherwise (absent, empty — the case the original claim misses — or
"null"). -/
theorem c6_register_success (s : ServerState) (c : Nat) (ci : ConnInfo) (u t : Option String)
    (hc : mapGet s.conns c = some ci) (ho : ci.isOpen = true)
    (hstale : ∀ r, mapGet s.clients u = some r → connOpen s r.ws = false) :
    mapGet (stepState s (Event.recv c (some (regEnv u t)))).clients u = some ⟨c, normIp t, c⟩ ∧
    stepSends s (Event.recv c (some (regEnv u t))) = [(c, OutMsg.registered u (normIp t))] ∧
    (∀ k, k ≠ u → mapGet (stepState s (Event.recv c (some (regEnv u t)))).clients k = mapGet s.clients k) ∧
    (∀ v, normIp v = amendedNormIp v) := by
  have hstep : step s (Event.recv c (some (regEnv u t))) = handleData s c (regEnv u t) :=
    step_recv_open s c ci _ hc ho
  rw [handleData_register _ _ _ rfl] at hstep
  rw [handleRegister_success _ c _ hstale] at hstep
  refine ⟨?_, ?_, ?_, ?_⟩
  · simp only [stepState]
    rw [hstep]
    simp [mapGet_mapSet, regEnv]
  · simp only [stepSends]
    rw [hstep]
    rfl
  · intro k hk
    simp only [stepState]
    rw [hstep]
    show mapGet (mapSet (mapDelete s.clients u) u ⟨c, normIp (regEnv u t).tailscaleIP, c⟩) k = mapGet s.clients k
    rw [mapGet_mapSet]
    rw [if_neg (Ne.symm hk)]
    exact mapGet_mapDelete_ne _ _ _ (Ne.symm hk)
  · intro v
    cases v with
    | none => rfl
    | some a =>
      by_cases h0 : a = "" <;> by_cases h1 : a = "null" <;>
        simp [normIp, amendedNormIp, h0, h1]

/-- C6 witness: registering "carol" with a real address on a fresh server
inserts the record and confirms with the supplied address. -/
theorem c6_witness :
    mapGet (stepState (run [Event.connect 0]) (Event.recv 0 (some (regEnv (some "carol") (some "100.64.0.7"))))).clients (some "carol") = some ⟨0, "100.64.0.7", 0⟩ ∧
    stepSends (run [Event.connect 0]) (Event.recv 0 (some (regEnv (some "carol") (some "100.64.0.7")))) = [(0, OutMsg.registered (some "carol") "100.64.0.7")] := by
  have h := c6_register_success (run [Event.connect 0]) 0 ⟨true, JsVal.null, true⟩
    (some "carol") (some "100.64.0.7") rfl rfl
    (by
      intro r hr
      rw [show mapGet (run [Event.connect 0]).clients (some "carol") = none from rfl] at hr
      exact Option.noConfusion hr)
  exact ⟨h.1, h.2.1⟩

/-- C7 (confirmed): a message or webrtc-signal envelope is forwarded exactly
once, re-tagged with the same kind and with its fields preserved verbatim,
to the destination identity's channel when that identity is registered with
an open channel; otherwise nothing is sent to anyone.  In both cases the
server state is unchanged and the sender receives no reply. -/
theorem c7_forwarding (s : ServerState) (c : Nat) (ci : ConnInfo)
    (hc : mapGet s.conns c = some ci) (ho : ci.isOpen = true) :
    (∀ d : RawData, d.type = some "message" →
      (∀ r, mapGet s.clients d.to_ = some r → connOpen s r.ws = true →
        step s (Event.recv c (some d)) = (s, [(r.ws, OutMsg.fwdMessage d.to_ d.from_ d.message d.timestamp)])) ∧
      ((∀ r, mapGet s.clients d.to_ = some r → connOpen s r.ws = false) →
        step s (Event.recv c (some d)) = (s, []))) ∧
    (∀ d : RawData, d.type = some "webrtc-signal" →
      (∀ r, mapGet s.clients d.to_ = some r → connOpen s r.ws = true →
        step s (Event.recv c (some d)) = (s, [(r.ws, OutMsg.fwdSignal d.from_ d.to_ d.data)])) ∧
      ((∀ r, mapGet s.clients d.to_ = some r → connOpen s r.ws = false) →
        step s (Event.recv c (some d)) = (s, []))) := by
  constructor
  · intro d h1
    have hstep : step s (Event.recv c (some d)) = handleData s c d := step_recv_open s c ci d hc ho
    have hdata : handleData s c d = handleMessage s d := by simp [handleData, h1]
    rw [hdata] at hstep
    constructor
    · intro r hr hrw
      rw [hstep]
      unfold handleMessage
      rw [hr]
      simp [hrw]
    · intro hdead
      rw [hstep]
      unfold handleMessage
      cases hr : mapGet s.clients d.to_ with
      | none => rfl
      | some r =>
        have hf := hdead r hr
        simp [hf]
  · intro d h1
    have hstep : step s (Event.recv c (some d)) = handleData s c d := step_recv_open s c ci d hc ho
    have hdata : handleData s c d = handleSignal s d := by simp [handleData, h1]
    rw [hdata] at hstep
    constructor
    · intro r hr hrw
      rw [hstep]
      unfold handleSignal
      rw [hr]
      simp [hrw]
    · intro hdead
      rw [hstep]
      unfold handleSignal
      cases hr : mapGet s.clients d.to_ with
      | none => rfl
      | some r =>
        have hf := hdead r hr
        simp [hf]

/-- C7 witness: with "alice" on connection 0 and "bob" on connection 1, a
message from alice to bob is forwarded verbatim to channel 1, and a message
addressed to the unregistered "carol" produces no delivery and no reply. -/
theorem c7_witness :
    step (run [Event.connect 0, Event.recv 0 (some (regEnv (some "alice") none)), Event.connect 1, Event.recv 1 (some (regEnv (some "bob") none))]) (Event.recv 0 (some ({ type := some "message", from_ := some "alice", to_ := some "bob", message := some "hi", timestamp := some "1" } : RawData))) =
      (run [Event.connect 0, Event.recv 0 (some (regEnv (some "alice") none)), Event.connect 1, Event.recv 1 (some (regEnv (some "bob") none))], [(1, OutMsg.fwdMessage (some "bob") (some "alice") (some "hi") (some "1"))]) ∧
    step (run [Event.connect 0, Event.recv 0 (some (regEnv (some "alice") none)), Event.connect 1, Event.recv 1 (some (regEnv (some "bob") none))]) (Event.recv 0 (some ({ type := some "message", from_ := some "alice", to_ := some "carol", message := some "hi", timestamp := some "1" } : RawData))) =
      (run [Event.connect 0, Event.recv 0 (some (regEnv (some "alice") none)), Event.connect 1, Event.recv 1 (some (regEnv (some "bob") none))], []) := by
  have h := c7_forwarding
    (run [Event.connect 0, Event.recv 0 (some (regEnv (some "alice") none)), Event.connect 1, Event.recv 1 (some (regEnv (some "bob") none))])
    0 ⟨true, JsVal.str "alice", true⟩ rfl rfl
  constructor
  · exact (h.1 _ rfl).1 ⟨1, "N/A", 1⟩ rfl rfl
  · refine (h.1 _ rfl).2 ?_
    intro r hr
    rw [show mapGet (run [Event.connect 0, Event.recv 0 (some (regEnv (some "alice") none)), Event.connect 1, Event.recv 1 (some (regEnv (some "bob") none))]).clients (some "carol") = none from rfl] at hr
    exact Option.noConfusion hr

/-- C8 (confirmed): the inbound-data handler is total — modelled as a total
step function, so no payload crashes the process — and an envelope that
fails to decode, or decodes to an unrecognized type, is dropped: no reply on
any channel and no state change. -/
theorem c8_unknown_dropped (s : ServerState) (c : Nat) (ci : ConnInfo)
    (hc : mapGet s.conns c = some ci) (ho : ci.isOpen = true) :
    step s (Event.recv c none) = (s, []) ∧
    (∀ d : RawData, d.type ≠ some "register" → d.type ≠ some "message" → d.type ≠ some "webrtc-signal" →
      step s (Event.recv c (some d)) = (s, [])) := by
  constructor
  · exact step_recv_undecodable s c ci hc ho
  · intro d h1 h2 h3
    rw [step_recv_open s c ci d hc ho]
    simp [handleData, h1, h2, h3]

/-- C8 witness: an undecodable payload and an unknown envelope type are both
dropped with no state change and no sends. -/
theorem c8_witness :
    step (run [Event.connect 0]) (Event.recv 0 none) = (run [Event.connect 0], []) ∧
    step (run [Event.connect 0]) (Event.recv 0 (some ({ type := some "junk" } : RawData))) = (run [Event.connect 0], []) := by
  have h := c8_unknown_dropped (run [Event.connect 0]) 0 ⟨true, JsVal.null, true⟩ rfl rfl
  exact ⟨h.1, h.2 _ (by decide) (by decide) (by decide)⟩

/-- C9 (confirmed): for all event sequences the registry keys are pairwise
distinct — at most one Connection Record per identity at every reachable
instant (the registry is a Map keyed by identity, and every mutation
preserves key uniqueness). -/
theorem c9_identity_unique (es : List Event) : (keys (run es).clients).Nodup :=
  nodup_runFrom es initState (by simp [initState, keys])

/-- C10 (confirmed): a register envelope with an absent or empty userId is
not rejected: when no live record exists under that value a record keyed by
it is inserted, the registered confirmation echoing it is sent, and the
value is afterwards addressable as a message destination like any other
identity. -/
theorem c10_empty_identity (s : ServerState) (c : Nat) (ci : ConnInfo) (k t : Option String)
    (hc : mapGet s.conns c = some ci) (ho : ci.isOpen = true)
    (_hk : k = none ∨ k = some "")
    (hstale : ∀ r, mapGet s.clients k = some r → connOpen s r.ws = false) :
    mapGet (stepState s (Event.recv c (some (regEnv k t)))).clients k = some ⟨c, normIp t, c⟩ ∧
    stepSends s (Event.recv c (some (regEnv k t))) = [(c, OutMsg.registered k (normIp t))] ∧
    (∀ d : RawData, d.type = some "message" → d.to_ = k →
      step (stepState s (Event.recv c (some (regEnv k t)))) (Event.recv c (some d)) =
        (stepState s (Event.recv c (some (regEnv k t))), [(c, OutMsg.fwdMessage k d.from_ d.message d.timestamp)])) := by
  have hstep : step s (Event.recv c (some (regEnv k t))) = handleData s c (regEnv k t) :=
    step_recv_open s c ci _ hc ho
  rw [handleData_register _ _ _ rfl] at hstep
  rw [handleRegister_success _ c _ hstale] at hstep
  have hclients : (stepState s (Event.recv c (some (regEnv k t)))).clients = mapSet (mapDelete s.clients k) k ⟨c, normIp t, c⟩ := by
    simp only [stepState]
    rw [hstep]
    rfl
  have hget : mapGet (stepState s (Event.recv c (some (regEnv k t)))).clients k = some ⟨c, normIp t, c⟩ := by
    rw [hclients]
    simp [mapGet_mapSet]
  refine ⟨hget, ?_, ?_⟩
  · simp only [stepSends]
    rw [hstep]
    rfl
  · intro d h1 h2
    have hconn : mapGet (stepState s (Event.recv c (some (regEnv k t)))).conns c = some { ci with userId := jsOfOpt k } := by
      simp only [stepState]
      rw [hstep]
      show mapGet (setConnUserId s c (jsOfOpt (regEnv k t).userId)).conns c = _
      rw [mapGet_conns_setConnUserId s c ci _ hc]
      simp [regEnv]
    have hstep2 : step (stepState s (Event.recv c (some (regEnv k t)))) (Event.recv c (some d)) =
        handleData (stepState s (Event.recv c (some (regEnv k t)))) c d :=
      step_recv_open _ c _ d hconn ho
    have hdata : handleData (stepState s (Event.recv c (some (regEnv k t)))) c d =
        handleMessage (stepState s (Event.recv c (some (regEnv k t)))) d := by
      simp [handleData, h1]
    rw [hdata] at hstep2
    rw [hstep2]
    unfold handleMessage
    rw [h2, hget]
    have hco : connOpen (stepState s (Event.recv c (some (regEnv k t)))) c = true := by
      unfold connOpen
      rw [hconn]
      exact ho
    simp [hco]

/-- C10 witness: the empty-string identity registers on a fresh server, is
confirmed, and is then reachable as a message destination. -/
theorem c10_witness :
    mapGet (stepState (run [Event.connect 0]) (Event.recv 0 (some (regEnv (some "") none)))).clients (some "") = some ⟨0, "N/A", 0⟩ ∧
    step (stepState (run [Event.connect 0]) (Event.recv 0 (some (regEnv (some "") none)))) (Event.recv 0 (some ({ type := some "message", to_ := some "" } : RawData))) =
      (stepState (run [Event.connect 0]) (Event.recv 0 (some (regEnv (some "") none))), [(0, OutMsg.fwdMessage (some "") none none none)]) := by
  have h := c10_empty_identity (run [Event.connect 0]) 0 ⟨true, JsVal.null, true⟩ (some "") none rfl rfl (Or.inr rfl)
    (by
      intro r hr
      rw [show mapGet (run [Event.connect 0]).clients (some "") = none from rfl] at hr
      exact Option.noConfusion hr)
  exact ⟨h.1, h.2.2 _ rfl rfl⟩

end MuonsServer
